import Mathlib

/-!
Verification of the register-model and value-codec layer of a Stiebel Eltron
Modbus heat-pump client (`pystiebeleltron.py`).

The Python module is embedded shallowly:

* the static `REGISTERS` catalogue becomes explicit Lean data
  (`lwzBlocks`, `REGISTERS`);
* register words travel as `ℤ` (the comparisons in the source are plain
  integer comparisons), engineering values as `ℚ`;
* Python `round` is modelled as exact rational rounding with ties to even
  (`roundHalfEven`), which agrees with the source on every value examined
  here (all of them exactly representable in binary floating point);
* Python `&` on integers is `Int.land` (two's complement semantics);
* the transport is a function from request to either a word list or a
  fault; a fault stands for the `AttributeError` the source catches
  (a pymodbus error response carries no `.registers` attribute);
* exceptions become an explicit `Outcome`: `Outcome.ret b` is a normal
  boolean return, `Outcome.err m` an uncaught exception.  When a decode
  step would raise (a `TypeError` from applying `&` to a scaled float)
  the model reports `Outcome.err` and leaves the whole list unchanged;
  no register of the actual catalogue can trigger that branch.
-/

namespace Stiebel

/-- Register classification: Modbus input registers vs holding registers. -/
inductive RType
  | input
  | holding
deriving DecidableEq, Repr

/-- One register description of the catalogue: the tuple
`(NAME, dict with addr / type / unit / code)` of the Python source. -/
structure RegEntry where
  name : String
  addr : ℤ
  dtype : ℕ
  unit : Option String
  code : Option (List (String × ℤ))
deriving DecidableEq, Repr

/-- One block of the catalogue: a dict holding at most one INPUT list
and at most one HOLDING list. -/
structure Block where
  input : Option (List RegEntry)
  holding : Option (List RegEntry)
deriving DecidableEq, Repr

/-- One unit family's table: the `ERRORS` dict (as an association list in
declaration order) and the `BLOCKS` list.  Either key may be absent, as it
is for the WPM family whose table is the empty dict. -/
structure UnitFamily where
  errors : Option (List (String × ℤ))
  blocks : Option (List Block)
deriving DecidableEq, Repr

/-- A decoded register value: an unscaled integer (types 6 and 8), a scaled
rational (types 2 and 7), an error-sentinel name, or a code-map label list. -/
inductive Value
  | vInt (z : ℤ)
  | vRat (q : ℚ)
  | vStr (s : String)
  | vList (l : List String)
deriving DecidableEq, Repr

/-- The pair the source stores on a register dict after a read:
`value_raw` and the decoded `value`. -/
abbrev RegState := ℤ × Value

/-- Python `round` to an integer on exact rationals: round to nearest,
ties to the even neighbour. -/
def roundHalfEven (x : ℚ) : ℤ :=
  if x - ⌊x⌋ < 1/2 then ⌊x⌋
  else if 1/2 < x - ⌊x⌋ then ⌊x⌋ + 1
  else if ⌊x⌋ % 2 = 0 then ⌊x⌋ else ⌊x⌋ + 1

/-- Python `round(x, d)` for positive `d` on exact rationals. -/
def roundTo (d : ℕ) (x : ℚ) : ℚ :=
  (roundHalfEven (x * 10 ^ d) : ℚ) / 10 ^ d

/-- The error-sentinel scan of `update()`: the loop walks the `ERRORS`
items in order and rebinds `result` to the first matching name (after one
match, `result` is a string, so later integer comparisons are all false). -/
def errName : List (String × ℤ) → ℤ → Option String
  | [], _ => none
  | (n, c) :: rest, raw => if raw = c then some n else errName rest raw

/-- A scaled register value before code-map interpretation: still an
integer for types 6 and 8, a Python float (here `ℚ`) for types 2 and 7. -/
inductive Scaled
  | i (z : ℤ)
  | q (x : ℚ)
deriving DecidableEq, Repr

/-- The data-type scaling of `update()`: type 2 is `round(raw * 0.1, 1)`,
type 7 is `round(raw * 0.01, 1)` (sic: the source rounds type 7 to one
decimal), every other type is left unchanged. -/
def scaleRead (t : ℕ) (r : ℤ) : Scaled :=
  if t = 2 then .q (roundTo 1 ((r : ℚ) * (1/10)))
  else if t = 7 then .q (roundTo 1 ((r : ℚ) * (1/100)))
  else .i r

/-- Python `==` between the scaled value and a code-map integer. -/
def eqScaled : Scaled → ℤ → Bool
  | .i z, c => z == c
  | .q x, c => x == (c : ℚ)

/-- The code-map loop of `update()`: for each entry in declaration order,
an exact match replaces the accumulator with a one-element list and breaks;
otherwise the entry's label is appended when `result & value` is nonzero.
Applying `&` to a float raises `TypeError`, modelled as `none`. -/
def codeLoop : List (String × ℤ) → Scaled → List String → Option (List String)
  | [], _, acc => some acc
  | (c, cv) :: rest, v, acc =>
    if eqScaled v cv then some [c]
    else
      match v with
      | .i z => if Int.land z cv ≠ 0 then codeLoop rest v (acc ++ [c]) else codeLoop rest v acc
      | .q _ => none

/-- Wrap a scaled value as a stored `Value`. -/
def scaledValue : Scaled → Value
  | .i z => .vInt z
  | .q x => .vRat x

/-- Decoding of one raw word in `update()`: error sentinels short-circuit,
then the data-type scale is applied, then the code map when present.
`none` is the uncaught `TypeError` of the float-bitmask branch. -/
def decodeOne (errs : List (String × ℤ)) (r : RegEntry) (raw : ℤ) : Option Value :=
  match errName errs raw with
  | some n => some (.vStr n)
  | none =>
    match r.code with
    | none => some (scaledValue (scaleRead r.dtype raw))
    | some cm => (codeLoop cm (scaleRead r.dtype raw) []).map Value.vList

/-- Outcome of a call: a normal boolean return or an uncaught exception. -/
inductive Outcome
  | ret (b : Bool)
  | err (msg : String)
deriving DecidableEq, Repr

/-- What one ranged Modbus read yields: a word list, or a response whose
`.registers` access raises `AttributeError`. -/
inductive ReadResult
  | ok (ws : List ℤ)
  | fault
deriving DecidableEq, Repr

/-- The transport collaborator: register type, 0-based start address and
count to one read result. -/
abbrev Transport := RType → ℤ → ℕ → ReadResult

/-- The mutable per-block state: for each register of the INPUT and the
HOLDING list (in catalogue order), its `(value_raw, value)` pair once one
has been stored. -/
structure BlockState where
  inputS : List (Option RegState)
  holdingS : List (Option RegState)
deriving DecidableEq, Repr

/-- Decode a full word list against its register list.  `none` is an
uncaught `TypeError` from `decodeOne`. -/
def decodeList (errs : List (String × ℤ)) : List RegEntry → List ℤ → Option (List (Option RegState))
  | [], _ => some []
  | _ :: _, [] => some []
  | r :: rs, w :: ws =>
    match decodeOne errs r w with
    | none => none
    | some v => (decodeList errs rs ws).map (fun rest => some (w, v) :: rest)

/-- Processing of one register-type list in `update()`: compute the ranged
read from the first register's address, check `results and len(results)
== count`, and on success overwrite every register's state index for
index.  The second component is `none` to continue, or the outcome that
aborts the whole call: `ret false` for a caught `AttributeError` fault,
`err` for the uncaught exceptions (`IndexError` on an empty list,
`KeyError` when the family has no `ERRORS` dict, `TypeError` from the
code-map loop on a float). -/
def processList (errs : Option (List (String × ℤ))) (t : Transport) (rt : RType) :
    List RegEntry → List (Option RegState) → List (Option RegState) × Option Outcome
  | [], st => (st, some (.err "IndexError"))
  | r0 :: rest, st =>
    match t rt (r0.addr - 1) (r0 :: rest).length with
    | .fault => (st, some (.ret false))
    | .ok ws =>
      if ws ≠ [] ∧ ws.length = (r0 :: rest).length then
        match errs with
        | none => (st, some (.err "KeyError: ERRORS"))
        | some es =>
          match decodeList es (r0 :: rest) ws with
          | some sts => (sts, none)
          | none => (st, some (.err "TypeError"))
      else (st, none)

/-- The HOLDING half of one block iteration of `update()`. -/
def processHolding (errs : Option (List (String × ℤ))) (t : Transport)
    (b : Block) (s : BlockState) : BlockState × Option Outcome :=
  match b.holding with
  | none => (s, none)
  | some regs =>
    (⟨s.inputS, (processList errs t .holding regs s.holdingS).1⟩,
     (processList errs t .holding regs s.holdingS).2)

/-- One block iteration of `update()`: the INPUT list and then the HOLDING
list, each when present. -/
def processBlock (errs : Option (List (String × ℤ))) (t : Transport)
    (b : Block) (s : BlockState) : BlockState × Option Outcome :=
  match b.input with
  | none => processHolding errs t b s
  | some regs =>
    match (processList errs t .input regs s.inputS).2 with
    | none => processHolding errs t b ⟨(processList errs t .input regs s.inputS).1, s.holdingS⟩
    | some o => (⟨(processList errs t .input regs s.inputS).1, s.holdingS⟩, some o)

/-- The block loop of `update()`: blocks in catalogue order; a stop keeps
the states already written and leaves the rest untouched. -/
def processBlocks (errs : Option (List (String × ℤ))) (t : Transport) :
    List Block → List BlockState → List BlockState × Outcome
  | [], ss => (ss, .ret true)
  | _ :: _, [] => ([], .ret true)
  | b :: bs, s :: ss =>
    match (processBlock errs t b s).2 with
    | none =>
      ((processBlock errs t b s).1 :: (processBlocks errs t bs ss).1,
       (processBlocks errs t bs ss).2)
    | some o => ((processBlock errs t b s).1 :: ss, o)

/-- `update()` for one unit family: the `BLOCKS` access raises a
`KeyError` (uncaught, the handler only catches `AttributeError`) when the
family's table has no such key. -/
def update (fam : UnitFamily) (t : Transport) (ss : List BlockState) :
    List BlockState × Outcome :=
  match fam.blocks with
  | none => (ss, .err "KeyError: BLOCKS")
  | some bs => processBlocks fam.errors t bs ss

/-- The innermost loop of `_find_register`: first name match of one list
(this loop is the only one the `break` exits). -/
def findInList : List RegEntry → String → Option RegEntry
  | [], _ => none
  | r :: rs, name => if r.name = name then some r else findInList rs name

/-- View an optional register list as a zero- or one-element list of lists. -/
def optList : Option (List RegEntry) → List (List RegEntry)
  | none => []
  | some l => [l]

/-- The register-type lists of one block that `_find_register` scans:
all present keys without a filter, exactly the filtered key when the block
has it, nothing (Python `continue`) otherwise. -/
def setsOf (b : Block) : Option RType → List (List RegEntry)
  | none => optList b.input ++ optList b.holding
  | some .input => optList b.input
  | some .holding => optList b.holding

/-- Rebinding of the `register` variable: a later match overwrites an
earlier one, no match keeps the old value. -/
def override (a b : Option RegEntry) : Option RegEntry :=
  match b with
  | some r => some r
  | none => a

/-- The middle loop of `_find_register` over one block's register lists. -/
def findSets (name : String) : List (List RegEntry) → Option RegEntry → Option RegEntry
  | [], acc => acc
  | s :: rest, acc => findSets name rest (override acc (findInList s name))

/-- The outer loop of `_find_register` over the blocks. -/
def findBlocks (name : String) (f : Option RType) : List Block → Option RegEntry → Option RegEntry
  | [], acc => acc
  | b :: rest, acc => findBlocks name f rest (findSets name (setsOf b f) acc)

/-- `_find_register(name, block_type)` on a block list. -/
def find_register (blocks : List Block) (f : Option RType) (name : String) : Option RegEntry :=
  findBlocks name f blocks none

/-- Outcome of `set_register`: an exception with its message, or the write
request handed to the transport. -/
inductive SetOutcome
  | exc (msg : String)
  | write (addr : ℤ) (value : ℚ)
deriving DecidableEq, Repr

/-- The write-side type factor of `set_register`: `round(value * 10)` for
type 2, `round(value * 100)` for type 7, unchanged otherwise. -/
def scaleWrite (t : ℕ) (v : ℚ) : ℚ :=
  if t = 2 then ((roundHalfEven (v * 10) : ℤ) : ℚ)
  else if t = 7 then ((roundHalfEven (v * 100) : ℤ) : ℚ)
  else v

/-- `set_register(name, value)`: resolve restricted to HOLDING, apply the
type factor, validate against the code map when present, then write to
`addr - 1`. -/
def set_register (fam : UnitFamily) (name : String) (value : ℚ) : SetOutcome :=
  match fam.blocks with
  | none => .exc "KeyError: BLOCKS"
  | some blocks =>
    match find_register blocks (some .holding) name with
    | none => .exc "Register not found or not HOLDING register!"
    | some reg =>
      let v := scaleWrite reg.dtype value
      match reg.code with
      | none => .write (reg.addr - 1) v
      | some cm =>
        if cm.all (fun e => (e.2 : ℚ) != v) then .exc "Value not supported!"
        else .write (reg.addr - 1) v

/-- Addresses from `a` upward in steps of one. -/
def contigFrom : ℤ → List RegEntry → Bool
  | _, [] => true
  | a, r :: rs => (r.addr == a) && contigFrom (a + 1) rs

/-- The contiguity invariant a single ranged read needs: the register at
index `i` has address `first address + i`. -/
def contiguousB : List RegEntry → Bool
  | [] => true
  | r :: rs => contigFrom r.addr (r :: rs)

/-- The LWZ `ERRORS` dict, in declaration order. -/
def lwzErrors : List (String × ℤ) :=
  [("N/A", 32768), ("SENSOR_LEAD_MISSING", -60), ("SHORTCUT", -50)]

/-- Block 1 System values (read input register). -/
def block1Input : List RegEntry :=
  [ ⟨"ACTUAL_ROOM_TEMPERATURE_HC1", 1, 2, some "°C", none⟩,
    ⟨"SET_ROOM_TEMPERATURE_HC1", 2, 2, some "°C", none⟩,
    ⟨"ACTUAL_ROOM_TEMPERATURE_HC2", 4, 2, some "°C", none⟩,
    ⟨"SET_ROOM_TEMPERATURE_HC2", 5, 2, some "°C", none⟩,
    ⟨"RELATIVE_HUMIDITY_HC1", 3, 2, some "%", none⟩,
    ⟨"RELATIVE_HUMIDITY_HC2", 6, 2, some "%", none⟩,
    ⟨"OUTSIDE_TEMPERATURE", 7, 2, some "°C", none⟩,
    ⟨"ACTUAL_VALUE_HC1", 8, 2, some "°C", none⟩,
    ⟨"SET_VALUE_HC1", 9, 2, some "°C", none⟩,
    ⟨"ACTUAL_VALUE_HC2", 10, 2, some "°C", none⟩,
    ⟨"SET_VALUE_HC2", 11, 2, some "°C", none⟩,
    ⟨"FLOW_TEMPERATURE", 12, 2, some "°C", none⟩,
    ⟨"RETURN_TEMPERATURE", 13, 2, some "°C", none⟩,
    ⟨"PRESSURE_HEATING_CIRCUIT", 14, 2, some "bar", none⟩,
    ⟨"FLOW_RATE", 15, 2, some "l/min", none⟩,
    ⟨"ACTUAL_DHW_TEMPERATURE", 16, 2, some "°C", none⟩,
    ⟨"SET_DHW_TEMPERATURE", 17, 2, some "°C", none⟩,
    ⟨"VENTILATION_AIR_ACTUAL_FAN_SPEED", 18, 6, some "Hz", none⟩,
    ⟨"VENTILATION_AIR_SET_FLOW_RATE", 19, 6, some "m³/h", none⟩,
    ⟨"EXTRACT_AIR_ACTUAL_FAN_SPEED", 20, 6, some "Hz", none⟩,
    ⟨"EXTRACT_AIR_SET_FLOW_RATE", 21, 6, some "m³/h", none⟩,
    ⟨"EXTRACT_AIR_HUMIDITY", 22, 6, some "%", none⟩,
    ⟨"EXTRACT_AIR_TEMPERATURE", 23, 2, some "°C", none⟩,
    ⟨"EXTRACT_AIR_DEW_POINT", 24, 2, some "°C", none⟩,
    ⟨"DEW_POINT_TEMPERATURE_HC1", 25, 2, some "°C", none⟩,
    ⟨"DEW_POINT_TEMPERATURE_HC2", 26, 2, some "°C", none⟩,
    ⟨"COLLECTOR_TEMPERATURE", 27, 2, some "°C", none⟩,
    ⟨"HOT_GAS_TEMPERATURE", 28, 2, some "°C", none⟩,
    ⟨"HIGH_PRESSURE", 29, 7, some "bar", none⟩,
    ⟨"LOW_PRESSURE", 30, 7, some "bar", none⟩,
    ⟨"COMPRESSOR_STARTS", 31, 6, none, none⟩,
    ⟨"COMPRESSOR_SPEED", 32, 2, some "Hz", none⟩,
    ⟨"MIXED_WATER_AMOUNT", 33, 6, some "l", none⟩ ]

/-- The OPERATING_MODE code map. -/
def operatingModeCode : List (String × ℤ) :=
  [("AUTOMATIC", 11), ("STANDBY", 1), ("DAY MODE", 3), ("SETBACK MODE", 4),
   ("DHW", 5), ("MANUAL MODE", 14), ("EMERGENCY OPERATION", 0)]

/-- Block 2 System parameters (read/write holding register). -/
def block2Holding : List RegEntry :=
  [ ⟨"OPERATING_MODE", 1001, 8, none, some operatingModeCode⟩,
    ⟨"ROOM_TEMP_HEAT_DAY_HC1", 1002, 2, some "°C", none⟩,
    ⟨"ROOM_TEMP_HEAT_NIGHT_HC1", 1003, 2, some "°C", none⟩,
    ⟨"MANUAL_SET_TEMP_HC1", 1004, 2, some "°C", none⟩,
    ⟨"ROOM_TEMP_HEAT_DAY_HC2", 1005, 2, some "°C", none⟩,
    ⟨"ROOM_TEMP_HEAT_NIGHT_HC2", 1006, 2, some "°C", none⟩,
    ⟨"MANUAL_SET_TEAMP_HC2", 1007, 2, some "°C", none⟩,
    ⟨"GRADIENT_HC1", 1008, 7, some "°C", none⟩,
    ⟨"LOW_END_HC1", 1009, 2, some "°C", none⟩,
    ⟨"GRADIENT_HC2", 1010, 7, some "°C", none⟩,
    ⟨"LOW_END_HC2", 1011, 2, some "°C", none⟩,
    ⟨"DHW_TEMP_SET_DAY", 1012, 2, some "°C", none⟩,
    ⟨"DHW_TEMP_SET_NIGHT", 1013, 2, some "°C", none⟩,
    ⟨"DHW_TEMP_SET_MANUAL", 1014, 2, some "°C", none⟩,
    ⟨"MWM_SET_DAY", 1015, 6, some "l", none⟩,
    ⟨"MWM_SET_NIGHT", 1016, 6, some "l", none⟩,
    ⟨"MWM_SET_MANUAL", 1017, 6, some "l", none⟩,
    ⟨"DAY_STAGE", 1018, 6, none, none⟩,
    ⟨"NIGHT_STAGE", 1019, 6, none, none⟩,
    ⟨"PARTY_STAGE", 1020, 6, none, none⟩,
    ⟨"MANUAL_STAGE", 1021, 6, none, none⟩,
    ⟨"ROOM_TEMP_COOL_DAY_HC1", 1022, 2, some "°C", none⟩,
    ⟨"ROOM_TEMP_COOL_NIGHT_HC1", 1023, 2, some "°C", none⟩,
    ⟨"ROOM_TEMP_COOL_DAY_HC2", 1024, 2, some "°C", none⟩,
    ⟨"ROOM_TEMP_COOL_NIGHT_HC2", 1025, 2, some "°C", none⟩,
    ⟨"RESET", 1026, 6, none, some [("OFF", 0), ("ON", 1)]⟩,
    ⟨"RESTART_ISG", 1027, 6, none, some [("OFF", 0), ("RESET", 1), ("MENU", 2)]⟩ ]

/-- The OPERATING_STATUS bitmask code map. -/
def operatingStatusCode : List (String × ℤ) :=
  [("SWITCHING_PROGRAM_ENABLED", 1), ("COMPRESSOR", 2), ("HEATING", 4),
   ("COOLING", 8), ("DHW", 16), ("ELECTRIC_REHEATING", 32), ("SERVICE", 64),
   ("POWER-OFF", 128), ("FILTER", 256), ("VENTILATION", 512),
   ("HEATING_CIRCUIT_PUMP", 1024), ("EVAPORATOR_DEFROST", 2048),
   ("FILTER_EXTRACT_AIR", 4096), ("FILTER_VENTILATION_AIR", 8192),
   ("HEAT-UP_PROGRAM", 16384)]

/-- Block 3 System status (read input register). -/
def block3Input : List RegEntry :=
  [ ⟨"OPERATING_STATUS", 2001, 6, none, some operatingStatusCode⟩,
    ⟨"FAULT_STATUS", 2002, 6, none, some [("NO_FAULT", 0), ("FAULT", 1)]⟩,
    ⟨"BUS_STATUS", 2003, 6, none,
      some [("STATUS OK", 0), ("STATUS ERROR", -1), ("ERROR-PASSIVE", -2),
            ("BUS-OFF", -3), ("PHYSICAL-ERROR", -4)]⟩,
    ⟨"DEFROST_INITIATED", 2004, 6, none, some [("OFF", 0), ("INITIATED", 1)]⟩,
    ⟨"OPERATING_STATUS-2", 2005, 6, none,
      some [("SUMMER_MODE_ACTIVE", 1), ("OVEN/FIREPLACE_MODE_ACTIVE", 2)]⟩ ]

/-- Block 4 Energy data (read input register). -/
def block4Input : List RegEntry :=
  [ ⟨"HEAT_METER_HEATING_DAY", 3001, 6, some "kWh", none⟩,
    ⟨"HEAT_METER_HEATING_TOTAL_kWh", 3002, 6, some "kWh", none⟩,
    ⟨"HEAT_METER_HEATING_TOTAL_MWh", 3003, 6, some "MWh", none⟩,
    ⟨"HEAT_METER_DHW_DAY", 3004, 6, some "kWh", none⟩,
    ⟨"HEAT_METER_DHW_TOTAL_kWh", 3005, 6, some "kWh", none⟩,
    ⟨"HEAT_METER_DHW_TOTAL_MWh", 3006, 6, some "MWh", none⟩,
    ⟨"HEAT_METER_BOOST_HEATING_TOTAL_kWh", 3007, 6, some "kWh", none⟩,
    ⟨"HEAT_METER_BOOST_HEATING_TOTAL_MWh", 3008, 6, some "MWh", none⟩,
    ⟨"HEAT_METER_BOOST_DHW_TOTAL_kWh", 3009, 6, some "kWh", none⟩,
    ⟨"HEAT_METER_BOOST_DHW_TOTAL_MWh", 3010, 6, some "MWh", none⟩,
    ⟨"HEAT_METER_RECOVERY_DAY", 3011, 6, some "kWh", none⟩,
    ⟨"HEAT_METER_RECOVERY_TOTAL_kWh", 3012, 6, some "kWh", none⟩,
    ⟨"HEAT_METER_RECOVERY_TOTAL_MWh", 3013, 6, some "MWh", none⟩,
    ⟨"HEAT_METER_SOLAR_HEATING_DAY", 3014, 6, some "kWh", none⟩,
    ⟨"HEAT_METER_SOLAR_HEATING_TOTAL_kWh", 3015, 6, some "kWh", none⟩,
    ⟨"HEAT_METER_SOLAR_HEATING_TOTAL_MWh", 3016, 6, some "MWh", none⟩,
    ⟨"HEAT_METER_SOLAR_DHW_DAY", 3017, 6, some "kWh", none⟩,
    ⟨"HEAT_METER_SOLAR_DHW_TOTAL_kWh", 3018, 6, some "kWh", none⟩,
    ⟨"HEAT_METER_SOLAR_DHW_TOTAL_MWh", 3019, 6, some "MWh", none⟩,
    ⟨"HEAT_METER_COOLING_TOTAL_kWh", 3020, 6, some "kWh", none⟩,
    ⟨"HEAT_METER_COOLING_TOTAL_MWh", 3021, 6, some "MWh", none⟩,
    ⟨"POWER_METER_HEATING_DAY", 3022, 6, some "kWh", none⟩,
    ⟨"POWER_METER_HEATING_TOTAL_kWh", 3023, 6, some "kWh", none⟩,
    ⟨"POWER_METER_HEATING_TOTAL_MWh", 3024, 6, some "MWh", none⟩,
    ⟨"POWER_METER_DHW_DAY", 3025, 6, some "kWh", none⟩,
    ⟨"POWER_METER_DHW_TOTAL_kWh", 3026, 6, some "kWh", none⟩,
    ⟨"POWER_METER_DHW_TOTAL_MWh", 3027, 6, some "MWh", none⟩,
    ⟨"TIMER_COMPRESSOR_HEATING", 3028, 6, some "h", none⟩,
    ⟨"TIMER_COMPRESSOR_COOLING", 3029, 6, some "h", none⟩,
    ⟨"TIMER_COMPRESSOR_DHW", 3030, 6, some "h", none⟩,
    ⟨"TIMER_BOOSTER_HEATING", 3031, 6, some "h", none⟩,
    ⟨"TIMER_BOOSTER_DHW", 3032, 6, some "h", none⟩ ]

/-- Block 5 Energy management settings (read/write holding register). -/
def block5Holding : List RegEntry :=
  [ ⟨"EM_SGREADY_SWITCH", 4001, 6, none, some [("OFF", 0), ("ON", 1)]⟩,
    ⟨"EM_SGREADY_INPUT_1", 4002, 6, none, some [("OFF", 0), ("ON", 1)]⟩,
    ⟨"EM_SGREADY_INPUT_2", 4003, 6, none, some [("OFF", 0), ("ON", 1)]⟩ ]

/-- Block 6 Energy management and system information (read input register). -/
def block6Input : List RegEntry :=
  [ ⟨"EM_SGREADY_OPERATING_MODE", 5001, 6, none,
      some [("REDUCED", 1), ("STANDARD", 2), ("INCREASED", 3), ("MAXIMIZED", 4)]⟩,
    ⟨"CONTROLLER_ID", 5002, 6, none,
      some [("LWZ 303/403 Integral/SOL; LWA 403; LWZ 304/404 Trend; LWZ 304/404 Flex; LWZ Smart; LWZ 604 Air; LWZ 5 S Plus/Trend/Smart", 103),
            ("LWZ 304/404 SOL; LWZ 504; LWZ 5/8 CS Premium", 104),
            ("WPM 3", 390), ("WPM 3i", 391), ("WPMsystem", 449)]⟩ ]

/-- The LWZ `BLOCKS` list. -/
def lwzBlocks : List Block :=
  [ ⟨some block1Input, none⟩,
    ⟨none, some block2Holding⟩,
    ⟨some block3Input, none⟩,
    ⟨some block4Input, none⟩,
    ⟨none, some block5Holding⟩,
    ⟨some block6Input, none⟩ ]

/-- The LWZ unit family. -/
def lwzFam : UnitFamily := ⟨some lwzErrors, some lwzBlocks⟩

/-- The WPM unit family: an empty table (only a TODO in the source). -/
def wpmFam : UnitFamily := ⟨none, none⟩

/-- The `REGISTERS` constant: the unit families in declaration order. -/
def REGISTERS : List (String × UnitFamily) := [("LWZ", lwzFam), ("WPM", wpmFam)]

/-- Rounding to nearest is unambiguous away from ties. -/
theorem roundHalfEven_eq_of_abs_lt (x : ℚ) (n : ℤ) (h : |x - (n : ℚ)| < 1/2) :
    roundHalfEven x = n := by
  rw [abs_lt] at h
  obtain ⟨ha, hb⟩ := h
  rcases le_or_lt (n : ℚ) x with hle | hlt
  · have hf : ⌊x⌋ = n := by
      rw [Int.floor_eq_iff]
      exact ⟨hle, by linarith⟩
    unfold roundHalfEven
    rw [hf]
    rw [if_pos hb]
  · have hf : ⌊x⌋ = n - 1 := by
      rw [Int.floor_eq_iff]
      constructor
      · push_cast; linarith
      · push_cast; linarith
    unfold roundHalfEven
    rw [hf]
    have hc1 : ¬(x - ((n - 1 : ℤ) : ℚ) < 1/2) := by push_cast; linarith
    have hc2 : (1/2 : ℚ) < x - ((n - 1 : ℤ) : ℚ) := by push_cast; linarith
    rw [if_neg hc1, if_pos hc2]
    omega

/-- A tie halfway between two integers rounds to the even one. -/
theorem roundHalfEven_int_add_half (n : ℤ) :
    roundHalfEven ((n : ℚ) + 1/2) = if n % 2 = 0 then n else n + 1 := by
  have hf : ⌊(n : ℚ) + 1/2⌋ = n := by
    rw [add_comm, Int.floor_add_int]
    norm_num [Int.floor_eq_iff]
  unfold roundHalfEven
  rw [hf]
  have he : (n : ℚ) + 1/2 - (n : ℚ) = 1/2 := by ring
  rw [he]
  norm_num

/-- Python `0 & z` is `0` for every integer `z`. -/
theorem land_zero_left (z : ℤ) : Int.land 0 z = 0 := by
  cases z with
  | ofNat n =>
    show Int.land (Int.ofNat 0) (Int.ofNat n) = 0
    simp [Int.land]
  | negSucc n =>
    show Int.land (Int.ofNat 0) (Int.negSucc n) = 0
    simp only [Int.land]
    have h : Nat.ldiff 0 n = 0 := by
      simp [Nat.ldiff, Nat.bitwise_zero_left]
    simp [h]

/-- The code-map loop on an integer scaled value never raises. -/
theorem codeLoop_int_isSome (cm : List (String × ℤ)) (z : ℤ) (acc : List String) :
    (codeLoop cm (.i z) acc).isSome := by
  induction cm generalizing acc with
  | nil => simp [codeLoop]
  | cons e rest ih =>
    obtain ⟨c, cv⟩ := e
    simp only [codeLoop]
    split
    · simp
    · split
      · exact ih _
      · exact ih _

/-- An exact match replaces everything accumulated so far and stops the
loop: the result is the one label of the first exactly matching entry. -/
theorem codeLoop_exact (v : ℤ) (c : String) (pre post : List (String × ℤ))
    (hpre : ∀ e ∈ pre, e.2 ≠ v) (acc : List String) :
    codeLoop (pre ++ (c, v) :: post) (.i v) acc = some [c] := by
  induction pre generalizing acc with
  | nil =>
    simp [codeLoop, eqScaled]
  | cons e rest ih =>
    obtain ⟨c0, cv0⟩ := e
    have hne : cv0 ≠ v := by
      intro he
      exact (hpre (c0, cv0) (by simp)) he
    have hpre2 : ∀ e ∈ rest, e.2 ≠ v := fun e he => hpre e (by simp [he])
    simp only [List.cons_append, codeLoop, eqScaled]
    rw [if_neg (by simpa using fun he => hne he.symm)]
    split
    · exact ih hpre2 _
    · exact ih hpre2 _

/-- Without an exact match the loop appends, in declaration order, the
labels of all entries whose value intersects the scaled value bitwise. -/
theorem codeLoop_mask (v : ℤ) (cm : List (String × ℤ))
    (hne : ∀ e ∈ cm, e.2 ≠ v) (acc : List String) :
    codeLoop cm (.i v) acc
      = some (acc ++ (cm.filter (fun e => Int.land v e.2 != 0)).map Prod.fst) := by
  induction cm generalizing acc with
  | nil => simp [codeLoop]
  | cons e rest ih =>
    obtain ⟨c0, cv0⟩ := e
    have hne0 : cv0 ≠ v := by
      intro he
      exact (hne (c0, cv0) (by simp)) he
    have hne2 : ∀ e ∈ rest, e.2 ≠ v := fun e he => hne e (by simp [he])
    simp only [codeLoop, eqScaled]
    rw [if_neg (by simpa using fun he => hne0 he.symm)]
    by_cases hl : Int.land v cv0 ≠ 0
    · rw [if_pos hl, ih hne2]
      simp [List.filter_cons, hl]
    · rw [if_neg hl, ih hne2]
      simp only [ne_eq, not_not] at hl
      simp [List.filter_cons, hl]

/-- A register whose code map cannot hit the float-bitmask `TypeError`:
either no code map, or an unscaled (integer) data type. -/
def regOkB (r : RegEntry) : Bool :=
  r.code.isNone || ((r.dtype != 2) && (r.dtype != 7))

/-- A well-formed optional register list: nonempty when present, and free
of float-coded registers. -/
def listOkB : Option (List RegEntry) → Bool
  | none => true
  | some l => (!l.isEmpty) && l.all regOkB

/-- Both lists of a block are well-formed. -/
def blockOkB (b : Block) : Bool :=
  listOkB b.input && listOkB b.holding

/-- Decoding cannot raise on a register without a float code map. -/
theorem decodeOne_isSome (errs : List (String × ℤ)) (r : RegEntry) (w : ℤ)
    (h : regOkB r = true) : (decodeOne errs r w).isSome := by
  unfold decodeOne
  cases herr : errName errs w with
  | some n => simp
  | none =>
    cases hc : r.code with
    | none => simp
    | some cm =>
      unfold regOkB at h
      rw [hc] at h
      simp only [Option.isNone_some, Bool.false_or, Bool.and_eq_true, bne_iff_ne] at h
      obtain ⟨h2, h7⟩ := h
      have hs : scaleRead r.dtype w = .i w := by
        unfold scaleRead
        rw [if_neg h2, if_neg h7]
      rw [hs]
      simpa using codeLoop_int_isSome cm w []

/-- Decoding a full-length word list cannot raise on a well-formed list. -/
theorem decodeList_isSome (es : List (String × ℤ)) :
    ∀ (regs : List RegEntry) (ws : List ℤ), (∀ r ∈ regs, regOkB r = true) →
      (decodeList es regs ws).isSome := by
  intro regs
  induction regs with
  | nil => intro ws _; simp [decodeList]
  | cons r rs ih =>
    intro ws h
    cases ws with
    | nil => simp [decodeList]
    | cons w ws2 =>
      simp only [decodeList]
      have hr : (decodeOne es r w).isSome := decodeOne_isSome es r w (h r (by simp))
      cases hd : decodeOne es r w with
      | none => rw [hd] at hr; simp at hr
      | some v =>
        have := ih ws2 (fun r2 hr2 => h r2 (by simp [hr2]))
        cases hd2 : decodeList es rs ws2 with
        | none => rw [hd2] at this; simp at this
        | some sts => simp

/-- The stop outcome of a register-type list is never the success return:
list processing either continues, aborts with the caught fault (`ret
false`), or raises. -/
theorem processList_snd_ne (errs : Option (List (String × ℤ))) (t : Transport)
    (rt : RType) (regs : List RegEntry) (st : List (Option RegState)) :
    (processList errs t rt regs st).2 ≠ some (Outcome.ret true) := by
  cases regs with
  | nil => rw [processList]; simp
  | cons r0 rest =>
    rw [processList]
    split
    · simp
    · split
      · split
        · simp
        · split <;> simp
      · simp

/-- The stop outcome of the HOLDING half is never the success return. -/
theorem processHolding_snd_ne (errs : Option (List (String × ℤ))) (t : Transport)
    (b : Block) (s : BlockState) :
    (processHolding errs t b s).2 ≠ some (Outcome.ret true) := by
  unfold processHolding
  split
  · simp
  · simpa using processList_snd_ne errs t .holding _ _

/-- The stop outcome of a block is never the success return. -/
theorem processBlock_snd_ne (errs : Option (List (String × ℤ))) (t : Transport)
    (b : Block) (s : BlockState) :
    (processBlock errs t b s).2 ≠ some (Outcome.ret true) := by
  unfold processBlock
  split
  · exact processHolding_snd_ne errs t b s
  · split
    · exact processHolding_snd_ne errs t b _
    · rename_i o heq2
      intro hcon
      simp at hcon
      subst hcon
      exact processList_snd_ne errs t .input _ s.inputS heq2

/-- Composition of the block loop: once a prefix of blocks runs to the
successful end, the loop continues into the remaining blocks with their
own states. -/
theorem processBlocks_append (errs : Option (List (String × ℤ))) (t : Transport) :
    ∀ (bs1 : List Block) (ss1 : List BlockState) (bs2 : List Block) (ss2 : List BlockState),
      bs1.length = ss1.length →
      (processBlocks errs t bs1 ss1).2 = .ret true →
      processBlocks errs t (bs1 ++ bs2) (ss1 ++ ss2)
        = ((processBlocks errs t bs1 ss1).1 ++ (processBlocks errs t bs2 ss2).1,
           (processBlocks errs t bs2 ss2).2) := by
  intro bs1
  induction bs1 with
  | nil =>
    intro ss1 bs2 ss2 hlen _
    have hss : ss1 = [] := by
      cases ss1 with
      | nil => rfl
      | cons a b => simp at hlen
    subst hss
    simp [processBlocks]
  | cons b bs ih =>
    intro ss1 bs2 ss2 hlen hret
    cases ss1 with
    | nil => simp at hlen
    | cons s ss =>
      simp only [List.cons_append]
      rw [processBlocks] at hret ⊢
      cases hp : (processBlock errs t b s).2 with
      | none =>
        rw [hp] at hret
        simp only at hret
        simp only
        rw [processBlocks, hp]
        simp only
        rw [ih ss bs2 ss2 (by simpa using hlen) hret]
        rfl
      | some o =>
        rw [hp] at hret
        simp only at hret
        subst hret
        exact absurd hp (processBlock_snd_ne errs t b s)

/-- A well-formed register list never stops the block loop when the
transport does not fault: short or full, the read leaves processing to
continue. -/
theorem processList_ok_none (es : List (String × ℤ)) (t : Transport) (rt : RType)
    (regs : List RegEntry) (st : List (Option RegState))
    (hnf : ∀ rt2 a c, t rt2 a c ≠ .fault)
    (hne : regs ≠ []) (hok : ∀ r ∈ regs, regOkB r = true) :
    (processList (some es) t rt regs st).2 = none := by
  cases regs with
  | nil => exact absurd rfl hne
  | cons r0 rest =>
    rw [processList]
    split
    · rename_i heqf
      exact absurd heqf (hnf rt _ _)
    · rename_i ws heqok
      split
      · split
        · rename_i h0
          simp at h0
        · rename_i cm hcm
          injection hcm with hcm2
          subst hcm2
          split
          · simp
          · rename_i hd2
            have hd := decodeList_isSome es (r0 :: rest) ws hok
            rw [hd2] at hd
            simp at hd
      · simp

/-- A well-formed block never stops the block loop when the transport does
not fault. -/
theorem processBlock_ok_none (es : List (String × ℤ)) (t : Transport)
    (b : Block) (s : BlockState)
    (hnf : ∀ rt2 a c, t rt2 a c ≠ .fault)
    (hok : blockOkB b = true) :
    (processBlock (some es) t b s).2 = none := by
  have hhold : ∀ s2 : BlockState, (processHolding (some es) t b s2).2 = none := by
    intro s2
    unfold processHolding
    cases hh : b.holding with
    | none => simp
    | some regs =>
      simp only
      apply processList_ok_none es t .holding regs s2.holdingS hnf
      · unfold blockOkB listOkB at hok
        rw [hh] at hok
        simp only [Bool.and_eq_true] at hok
        intro hcon
        rw [hcon] at hok
        simp [List.isEmpty] at hok
      · unfold blockOkB listOkB at hok
        rw [hh] at hok
        simp only [Bool.and_eq_true, List.all_eq_true] at hok
        exact hok.2.2
  unfold processBlock
  cases hi : b.input with
  | none => simp only; exact hhold s
  | some regs =>
    simp only
    have hin : (processList (some es) t .input regs s.inputS).2 = none := by
      apply processList_ok_none es t .input regs s.inputS hnf
      · unfold blockOkB listOkB at hok
        rw [hi] at hok
        simp only [Bool.and_eq_true] at hok
        intro hcon
        rw [hcon] at hok
        simp [List.isEmpty] at hok
      · unfold blockOkB listOkB at hok
        rw [hi] at hok
        simp only [Bool.and_eq_true, List.all_eq_true] at hok
        exact hok.1.2
    rw [hin]
    exact hhold _

/-- Over well-formed blocks and a fault-free transport, the block loop
always reaches the successful end, whatever word lists the reads return
(short reads included). -/
theorem processBlocks_no_fault (es : List (String × ℤ)) (t : Transport)
    (hnf : ∀ rt2 a c, t rt2 a c ≠ .fault) :
    ∀ (bs : List Block) (ss : List BlockState),
      (∀ b ∈ bs, blockOkB b = true) →
      (processBlocks (some es) t bs ss).2 = .ret true := by
  intro bs
  induction bs with
  | nil => intro ss _; rfl
  | cons b bs2 ih =>
    intro ss hok
    cases ss with
    | nil => rfl
    | cons s ss2 =>
      rw [processBlocks]
      rw [processBlock_ok_none es t b s hnf (hok b (by simp))]
      simp only
      exact ih ss2 (fun b2 hb2 => hok b2 (by simp [hb2]))

/-- Two successive rebinding steps collapse: the later candidate wins. -/
theorem override_override (acc a b : Option RegEntry) :
    override (override acc a) b = override acc (b.or a) := by
  cases a <;> cases b <;> rfl

/-- Rebinding from an empty accumulator keeps the candidate. -/
theorem override_none (a : Option RegEntry) : override none a = a := by
  cases a <;> rfl

/-- The middle loop of `_find_register` keeps, of all lists containing the
name, the match of the last one: first match scanning in reverse order. -/
theorem findSets_eq (name : String) :
    ∀ (sets : List (List RegEntry)) (acc : Option RegEntry),
      findSets name sets acc
        = override acc (sets.reverse.findSome? (fun s => findInList s name)) := by
  intro sets
  induction sets with
  | nil => intro acc; rfl
  | cons s rest ih =>
    intro acc
    rw [findSets, ih, List.reverse_cons, List.findSome?_append]
    cases hr : rest.reverse.findSome? (fun s2 => findInList s2 name) with
    | none =>
      cases hf : findInList s name <;>
        simp [override_override, Option.or, List.findSome?, hf, hr]
    | some r => simp [override_override, Option.or]

/-- The outer loop of `_find_register`, flattened over all blocks. -/
theorem findBlocks_eq (name : String) (f : Option RType) :
    ∀ (blocks : List Block) (acc : Option RegEntry),
      findBlocks name f blocks acc
        = override acc
            (((blocks.flatMap (fun b => setsOf b f)).reverse).findSome?
              (fun s => findInList s name)) := by
  intro blocks
  induction blocks with
  | nil => intro acc; rfl
  | cons b rest ih =>
    intro acc
    rw [findBlocks, ih, findSets_eq, List.flatMap_cons, List.reverse_append,
        List.findSome?_append, override_override]

/-- When no HOLDING list contains the name, the HOLDING-filtered scan
comes back empty. -/
theorem findBlocks_holding_none (name : String) :
    ∀ (blocks : List Block) (acc : Option RegEntry),
      (∀ b ∈ blocks, findInList (b.holding.getD []) name = none) →
      findBlocks name (some .holding) blocks acc = acc := by
  intro blocks
  induction blocks with
  | nil => intro acc _; rfl
  | cons b rest ih =>
    intro acc h
    rw [findBlocks]
    have hb : findSets name (setsOf b (some .holding)) acc = acc := by
      cases hh : b.holding with
      | none => simp [setsOf, optList, hh, findSets]
      | some l =>
        have h2 : findInList l name = none := by
          have := h b (by simp)
          rw [hh] at this
          simpa using this
        simp [setsOf, optList, hh, findSets, h2, override]
    rw [hb]
    exact ih acc (fun b2 hb2 => h b2 (by simp [hb2]))

/-- Decoding with a code map, spelled out, for a non-sentinel raw word. -/
theorem decodeOne_code (errs : List (String × ℤ)) (r : RegEntry) (raw : ℤ)
    (cm : List (String × ℤ)) (hs : errName errs raw = none) (hc : r.code = some cm) :
    decodeOne errs r raw = (codeLoop cm (scaleRead r.dtype raw) []).map Value.vList := by
  simp only [decodeOne, hs, hc]

/-- C1.  The claim states that inside every register-type list the address
at index `i` is the first address plus `i`.  The code violates it: in LWZ
block 1 the INPUT list is declared out of address order (1, 2, 4, 5, 3,
6, ...), so the entry at index 2 declares address 4 while the first
address plus 2 is 3; every other list of the catalogue does satisfy the
invariant, which the index-for-index word assignment of `update()` relies
on, so the misordered list is a slip in the catalogue. -/
theorem c1_block1_addresses_not_contiguous :
    contiguousB block1Input = false
    ∧ (block1Input[0]?).map RegEntry.addr = some 1
    ∧ (block1Input[2]?).map RegEntry.addr = some 4
    ∧ (block1Input[2]?).map RegEntry.name = some "ACTUAL_ROOM_TEMPERATURE_HC2"
    ∧ (1 : ℤ) + 2 ≠ 4
    ∧ contiguousB block2Holding = true
    ∧ contiguousB block3Input = true
    ∧ contiguousB block4Input = true
    ∧ contiguousB block5Holding = true
    ∧ contiguousB block6Input = true := by
  decide

/-- C2.  The claim states that a type-7 register decodes a non-sentinel
raw word to `raw * 0.01` rounded to two decimals, yielding an
encode/decode round trip at 0.01 precision.  The code instead rounds to
one decimal (`round(result * 0.01, 1)`): raw 123 on the type-7 register
HIGH_PRESSURE decodes to 1.2, not 1.23, and writing the decoded value
back would encode to 120, not 123. -/
theorem c2_type7_decode_rounds_to_one_decimal :
    block1Input[28]? = some ⟨"HIGH_PRESSURE", 29, 7, some "bar", none⟩
    ∧ decodeOne lwzErrors ⟨"HIGH_PRESSURE", 29, 7, some "bar", none⟩ 123
        = some (.vRat (6/5))
    ∧ (6/5 : ℚ) ≠ 123/100
    ∧ scaleWrite 7 (6/5) = 120
    ∧ (120 : ℚ) ≠ 123 := by
  refine ⟨by decide, ?_, by norm_num, ?_, by norm_num⟩
  · have hr : roundHalfEven ((123 : ℚ) * (1/100) * 10 ^ (1 : ℕ)) = 12 :=
      roundHalfEven_eq_of_abs_lt _ 12 (by rw [abs_lt]; constructor <;> norm_num)
    calc decodeOne lwzErrors ⟨"HIGH_PRESSURE", 29, 7, some "bar", none⟩ 123
        = some (.vRat ((roundHalfEven ((123 : ℚ) * (1/100) * 10 ^ (1 : ℕ)) : ℚ) / 10 ^ (1 : ℕ))) := rfl
      _ = some (.vRat (6/5)) := by rw [hr]; norm_num
  · have hr : roundHalfEven ((6 : ℚ)/5 * 100) = 120 :=
      roundHalfEven_eq_of_abs_lt _ 120 (by rw [abs_lt]; constructor <;> norm_num)
    calc scaleWrite 7 (6/5)
        = ((roundHalfEven ((6 : ℚ)/5 * 100) : ℤ) : ℚ) := rfl
      _ = 120 := by rw [hr]; norm_num

/-- C3.  Any raw word equal to an LWZ error sentinel decodes to that
sentinel's symbolic name, for every register whatever its data type or
code map: the sentinel scan runs before scaling and code-map
interpretation and short-circuits both. -/
theorem c3_error_sentinel_short_circuits (r : RegEntry) (raw : ℤ) (name : String)
    (h : (name, raw) ∈ lwzErrors) :
    decodeOne lwzErrors r raw = some (Value.vStr name) := by
  have he : errName lwzErrors raw = some name := by
    simp only [lwzErrors, List.mem_cons, List.not_mem_nil, or_false] at h
    rcases h with h | h | h <;>
      (rw [Prod.ext_iff] at h; obtain ⟨h1, h2⟩ := h; subst h1; subst h2; rfl)
  simp [decodeOne, he]

/-- Witness for C3: sentinel `-60` on the type-7 register HIGH_PRESSURE
decodes to the string SENSOR_LEAD_MISSING, not to a scaled number. -/
theorem c3_error_sentinel_witness :
    decodeOne lwzErrors ⟨"HIGH_PRESSURE", 29, 7, some "bar", none⟩ (-60)
      = some (Value.vStr "SENSOR_LEAD_MISSING") :=
  c3_error_sentinel_short_circuits _ _ _ (by decide)

/-- C4.  For a coded register of an unscaled data type and a non-sentinel
word: an exact match on some entry yields exactly the first such entry's
label as a one-element list (accumulated bitmask labels are discarded by
the rebinding before the break); with no exact match, the labels of all
entries whose value intersects the word bitwise are collected in
declaration order; and word 0 with no zero-valued entry yields the empty
list, not an error. -/
theorem c4_code_map_decoding (errs : List (String × ℤ)) (nm : String) (a : ℤ)
    (u : Option String) (d : ℕ) (cm : List (String × ℤ)) (v : ℤ)
    (hs : errName errs v = none) (h2 : d ≠ 2) (h7 : d ≠ 7) :
    (∀ (pre : List (String × ℤ)) (c : String) (post : List (String × ℤ)),
        cm = pre ++ (c, v) :: post → (∀ e ∈ pre, e.2 ≠ v) →
        decodeOne errs ⟨nm, a, d, u, some cm⟩ v = some (.vList [c]))
    ∧ ((∀ e ∈ cm, e.2 ≠ v) →
        decodeOne errs ⟨nm, a, d, u, some cm⟩ v
          = some (.vList ((cm.filter (fun e => Int.land v e.2 != 0)).map Prod.fst)))
    ∧ (v = 0 → (∀ e ∈ cm, e.2 ≠ 0) →
        decodeOne errs ⟨nm, a, d, u, some cm⟩ v = some (.vList [])) := by
  have hsc : scaleRead d v = .i v := by
    unfold scaleRead
    rw [if_neg h2, if_neg h7]
  have hbase : decodeOne errs ⟨nm, a, d, u, some cm⟩ v
      = (codeLoop cm (.i v) []).map Value.vList := by
    rw [decodeOne_code errs ⟨nm, a, d, u, some cm⟩ v cm hs rfl]
    rw [hsc]
  refine ⟨?_, ?_, ?_⟩
  · intro pre c post hcm hpre
    rw [hbase, hcm, codeLoop_exact v c pre post hpre []]
    rfl
  · intro hne
    rw [hbase, codeLoop_mask v cm hne []]
    rfl
  · intro hv hne
    subst hv
    rw [hbase, codeLoop_mask 0 cm hne []]
    have hfil : cm.filter (fun e => Int.land 0 e.2 != 0) = [] := by
      rw [List.filter_eq_nil_iff]
      intro e _
      simp [land_zero_left]
    rw [hfil]
    rfl

/-- Witness for C4: OPERATING_STATUS word 6 has no exact map entry and
decodes as the bitmask COMPRESSOR + HEATING, in declaration order. -/
theorem c4_code_map_witness :
    decodeOne lwzErrors ⟨"OPERATING_STATUS", 2001, 6, none, some operatingStatusCode⟩ 6
      = some (.vList ["COMPRESSOR", "HEATING"]) := by
  have h := (c4_code_map_decoding lwzErrors "OPERATING_STATUS" 2001 none 6
      operatingStatusCode 6 (by decide) (by decide) (by decide)).2.1 (by decide)
  rw [h]
  decide

/-- A two-block catalogue with a duplicated register name, to probe the
claimed first-match semantics of `_find_register`. -/
def dupBlocks : List Block :=
  [ ⟨some [⟨"X", 1, 6, none, none⟩], none⟩,
    ⟨some [⟨"X", 99, 6, none, none⟩], none⟩ ]

/-- Counterexample to C5.  The claim states the scan stops at the first
match even when a later block holds another register of the same name.
On a catalogue whose two blocks both declare `X`, the scan returns the
second block's register (address 99), not the first block's (address 1):
the `break` only leaves the innermost loop and the outer loops rebind the
result. -/
theorem c5_first_match_counterexample :
    find_register dupBlocks none "X" = some ⟨"X", 99, 6, none, none⟩
    ∧ findInList [⟨"X", 1, 6, none, none⟩] "X" = some ⟨"X", 1, 6, none, none⟩
    ∧ (some (⟨"X", 99, 6, none, none⟩ : RegEntry)
        ≠ some (⟨"X", 1, 6, none, none⟩ : RegEntry)) := by
  decide

/-- C5 amended.  `_find_register` scans blocks in catalogue order and
takes the first exact name match inside each register list, but a match
found in a later list overwrites an earlier one: the result is the first
match of the last matching list, i.e. the first match when the lists are
scanned in reverse catalogue order.  (On the actual catalogue names are
unique, so this coincides with the unique match.) -/
theorem c5_last_list_first_match (blocks : List Block) (f : Option RType) (name : String) :
    find_register blocks f name
      = ((blocks.flatMap (fun b => setsOf b f)).reverse).findSome?
          (fun s => findInList s name) := by
  unfold find_register
  rw [findBlocks_eq]
  exact override_none _

/-- A family of two single-register blocks for the C6 counterexample. -/
def famC6 : UnitFamily :=
  ⟨some lwzErrors,
   some [⟨some [⟨"A", 1, 6, none, none⟩], none⟩,
         ⟨some [⟨"B", 2, 6, none, none⟩], none⟩]⟩

/-- A transport that answers the first block's read (0-based address 0)
with a word list of the wrong length and faults on everything else. -/
def tC6 : Transport := fun _ a _ => if a = 0 then .ok [7, 7] else .fault

/-- Counterexample to C6.  The claim states that after a short read the
call reports overall failure only if that short read was the sole data to
fetch.  Here the catalogue has two lists to fetch; the first read is
short (2 words against count 1) and the second faults: `update()` reports
failure although the short read was not the sole data to fetch — the
failure verdict comes from faults alone, never from short reads. -/
theorem c6_short_read_failure_counterexample :
    update famC6 tC6 [⟨[none], []⟩, ⟨[none], []⟩]
      = ([⟨[none], []⟩, ⟨[none], []⟩], .ret false)
    ∧ tC6 .input 0 1 = .ok [7, 7]
    ∧ ([7, 7] : List ℤ).length ≠ 1
    ∧ (famC6.blocks.getD []).length = 2 := by
  decide

/-- C6 amended.  A ranged read returning a word list of the wrong length
(or an empty one) leaves every state of that register-type list exactly
as it was and lets the call continue (first conjunct); a block that
finished without a stop hands the remaining blocks their own processing
unchanged, so other blocks' successful reads still land (second
conjunct); and when the transport never faults, `update()`'s block loop
ends with the success verdict `ret true` no matter how many reads were
short — a short read alone never makes the call report failure (third
conjunct). -/
theorem c6_short_read_no_overwrite :
    (∀ (errs : Option (List (String × ℤ))) (t : Transport) (rt : RType)
        (r0 : RegEntry) (rs : List RegEntry) (st : List (Option RegState)) (ws : List ℤ),
        t rt (r0.addr - 1) (r0 :: rs).length = .ok ws →
        (ws = [] ∨ ws.length ≠ (r0 :: rs).length) →
        processList errs t rt (r0 :: rs) st = (st, none))
    ∧ (∀ (errs : Option (List (String × ℤ))) (t : Transport) (b : Block)
        (s : BlockState) (bs : List Block) (ss : List BlockState),
        (processBlock errs t b s).2 = none →
        processBlocks errs t (b :: bs) (s :: ss)
          = ((processBlock errs t b s).1 :: (processBlocks errs t bs ss).1,
             (processBlocks errs t bs ss).2))
    ∧ (∀ (es : List (String × ℤ)) (t : Transport) (bs : List Block)
        (ss : List BlockState),
        (∀ rt2 a c, t rt2 a c ≠ .fault) →
        (∀ b ∈ bs, blockOkB b = true) →
        (processBlocks (some es) t bs ss).2 = .ret true) := by
  refine ⟨?_, ?_, ?_⟩
  · intro errs t rt r0 rs st ws ht hshort
    rw [processList, ht]
    simp only
    rw [if_neg]
    intro hcon
    obtain ⟨hne, hlen⟩ := hcon
    rcases hshort with h | h
    · exact hne h
    · exact h hlen
  · intro errs t b s bs ss hp
    rw [processBlocks, hp]
  · intro es t bs ss hnf hok
    exact processBlocks_no_fault es t hnf bs ss hok

/-- Witness for C6: on a concrete one-register list whose read comes back
with two words instead of one, processing returns the state unchanged and
continues; and the two-block loop under a fault-free transport ends with
the success verdict. -/
theorem c6_short_read_witness :
    processList (some lwzErrors) tC6 .input [⟨"A", 1, 6, none, none⟩] [none]
      = ([none], none)
    ∧ (processBlocks (some lwzErrors) (fun _ _ _ => .ok [])
        (famC6.blocks.getD []) [⟨[none], []⟩, ⟨[none], []⟩]).2 = .ret true := by
  constructor
  · exact c6_short_read_no_overwrite.1 (some lwzErrors) tC6 .input
      ⟨"A", 1, 6, none, none⟩ [] [none] [7, 7] rfl (Or.inr (by decide))
  · exact c6_short_read_no_overwrite.2.2 lwzErrors (fun _ _ _ => .ok [])
      (famC6.blocks.getD []) [⟨[none], []⟩, ⟨[none], []⟩]
      (fun rt2 a c => by simp) (by decide)

/-- C7.  When a ranged read faults (the pymodbus response carries no
`.registers`, raising the `AttributeError` the handler catches), the
call stops there and returns the boolean `false`, whichever read faulted:
a fault on a block's INPUT read stops the block with its state untouched,
its HOLDING list unread (first conjunct); a fault on the HOLDING read of
a holding-only block likewise (second conjunct); a fault on the HOLDING
read after the same block's INPUT list was read in full keeps the freshly
written INPUT states (no rollback, third conjunct).  Wherever the fault
stopped a block, the whole loop returns the blocks already processed with
their fresh states, the faulting block's state at the moment of the
fault, the later blocks untouched, and the verdict `ret false` (fourth
conjunct) — a caught return, never a propagated exception (fifth
conjunct). -/
theorem c7_fault_aborts_returns_false (errs : Option (List (String × ℤ)))
    (t : Transport) :
    (∀ (b : Block) (s : BlockState) (r0 : RegEntry) (rs : List RegEntry),
        b.input = some (r0 :: rs) →
        t .input (r0.addr - 1) (r0 :: rs).length = .fault →
        processBlock errs t b s = (s, some (.ret false)))
    ∧ (∀ (b : Block) (s : BlockState) (r0 : RegEntry) (rs : List RegEntry),
        b.input = none → b.holding = some (r0 :: rs) →
        t .holding (r0.addr - 1) (r0 :: rs).length = .fault →
        processBlock errs t b s = (s, some (.ret false)))
    ∧ (∀ (b : Block) (s : BlockState) (regsI : List RegEntry)
        (stI : List (Option RegState)) (r0 : RegEntry) (rs : List RegEntry),
        b.input = some regsI →
        processList errs t .input regsI s.inputS = (stI, none) →
        b.holding = some (r0 :: rs) →
        t .holding (r0.addr - 1) (r0 :: rs).length = .fault →
        processBlock errs t b s = (⟨stI, s.holdingS⟩, some (.ret false)))
    ∧ (∀ (bs1 : List Block) (ss1 : List BlockState) (b : Block) (s : BlockState)
        (bs2 : List Block) (ss2 : List BlockState) (s2 : BlockState),
        bs1.length = ss1.length →
        (processBlocks errs t bs1 ss1).2 = .ret true →
        processBlock errs t b s = (s2, some (.ret false)) →
        processBlocks errs t (bs1 ++ b :: bs2) (ss1 ++ s :: ss2)
          = ((processBlocks errs t bs1 ss1).1 ++ s2 :: ss2, .ret false))
    ∧ (∀ m, Outcome.ret false ≠ Outcome.err m) := by
  refine ⟨?_, ?_, ?_, ?_, ?_⟩
  · intro b s r0 rs hi hfault
    have hpl : processList errs t .input (r0 :: rs) s.inputS
        = (s.inputS, some (.ret false)) := by
      rw [processList, hfault]
    simp only [processBlock, hi, hpl]
  · intro b s r0 rs hi hh hfault
    have hpl : processList errs t .holding (r0 :: rs) s.holdingS
        = (s.holdingS, some (.ret false)) := by
      rw [processList, hfault]
    simp only [processBlock, hi, processHolding, hh, hpl]
  · intro b s regsI stI r0 rs hi hplI hh hfault
    have hpl : processList errs t .holding (r0 :: rs) s.holdingS
        = (s.holdingS, some (.ret false)) := by
      rw [processList, hfault]
    simp only [processBlock, hi, hplI, processHolding, hh, hpl]
  · intro bs1 ss1 b s bs2 ss2 s2 hlen hok hpb
    rw [processBlocks_append errs t bs1 ss1 (b :: bs2) (s :: ss2) hlen hok]
    rw [processBlocks]
    rw [hpb]
  · intro m
    simp

/-- A transport that answers the read at 0-based address 0 with one word
and faults on every other read. -/
def tC7 : Transport := fun _ a _ => if a = 0 then .ok [5] else .fault

/-- Witness for C7: a fault on the HOLDING read of a holding-only block
stops that block with its state untouched; in a two-block run whose first
(INPUT) block read succeeds and whose second (holding-only) block faults,
the loop returns `false`, keeps the first block's fresh states and leaves
the faulting block untouched. -/
theorem c7_fault_witness :
    processBlock (some lwzErrors) tC7 ⟨none, some [⟨"H", 2, 6, none, none⟩]⟩ ⟨[], [none]⟩
      = (⟨[], [none]⟩, some (.ret false))
    ∧ processBlocks (some lwzErrors) tC7
        ([⟨some [⟨"A", 1, 6, none, none⟩], none⟩] ++ [⟨none, some [⟨"H", 2, 6, none, none⟩]⟩])
        ([⟨[none], []⟩] ++ [⟨[], [none]⟩])
        = ((processBlocks (some lwzErrors) tC7
              [⟨some [⟨"A", 1, 6, none, none⟩], none⟩] [⟨[none], []⟩]).1
            ++ [⟨[], [none]⟩], Outcome.ret false) := by
  constructor
  · exact (c7_fault_aborts_returns_false (some lwzErrors) tC7).2.1
      ⟨none, some [⟨"H", 2, 6, none, none⟩]⟩ ⟨[], [none]⟩ ⟨"H", 2, 6, none, none⟩ []
      rfl rfl (by decide)
  · exact (c7_fault_aborts_returns_false (some lwzErrors) tC7).2.2.2.1
      [⟨some [⟨"A", 1, 6, none, none⟩], none⟩] [⟨[none], []⟩]
      ⟨none, some [⟨"H", 2, 6, none, none⟩]⟩ ⟨[], [none]⟩ [] [] ⟨[], [none]⟩
      rfl (by decide)
      ((c7_fault_aborts_returns_false (some lwzErrors) tC7).2.1
        ⟨none, some [⟨"H", 2, 6, none, none⟩]⟩ ⟨[], [none]⟩ ⟨"H", 2, 6, none, none⟩ []
        rfl rfl (by decide))

/-- Counterexample to C8.  The claim states every codec rounding is
half-away-from-zero, so encoding 2.25 for the type-2 register
ROOM_TEMP_HEAT_DAY_HC1 should write 23.  Python `round` rounds ties to
the even neighbour: the write issued carries 22. -/
theorem c8_half_to_even_counterexample :
    set_register lwzFam "ROOM_TEMP_HEAT_DAY_HC1" (9/4) = .write 1001 22
    ∧ ((22 : ℚ) ≠ 23) := by
  constructor
  · have hf : find_register lwzBlocks (some .holding) "ROOM_TEMP_HEAT_DAY_HC1"
        = some ⟨"ROOM_TEMP_HEAT_DAY_HC1", 1002, 2, some "°C", none⟩ := by decide
    have hr : roundHalfEven ((9 : ℚ)/4 * 10) = 22 := by
      have h45 : (9 : ℚ)/4 * 10 = ((22 : ℤ) : ℚ) + 1/2 := by norm_num
      rw [h45, roundHalfEven_int_add_half]
      norm_num
    simp only [set_register, lwzFam, hf]
    rw [show scaleWrite 2 ((9 : ℚ)/4) = ((roundHalfEven ((9 : ℚ)/4 * 10) : ℤ) : ℚ) from rfl]
    rw [hr]
    norm_num
  · norm_num

/-- C8 amended.  Every rounding the codec performs is Python `round`,
i.e. round-half-to-even at the stated precision: the write-side type-2
factor is exactly `roundHalfEven` of ten times the value, a tie halfway
between integers rounds to the even neighbour (so 2.25 encodes to 22, not
23), and away from ties it rounds to the nearest integer. -/
theorem c8_rounding_half_to_even :
    (∀ v : ℚ, scaleWrite 2 v = ((roundHalfEven (v * 10) : ℤ) : ℚ))
    ∧ (∀ n : ℤ, roundHalfEven ((n : ℚ) + 1/2) = if n % 2 = 0 then n else n + 1)
    ∧ (∀ (x : ℚ) (n : ℤ), |x - (n : ℚ)| < 1/2 → roundHalfEven x = n) := by
  refine ⟨?_, roundHalfEven_int_add_half, roundHalfEven_eq_of_abs_lt⟩
  intro v
  rfl

/-- Witness for C8: the tie 22 + 1/2 rounds to the even 22, and the
non-tie 1 rounds to 1. -/
theorem c8_rounding_witness :
    roundHalfEven ((22 : ℚ) + 1/2) = 22 ∧ roundHalfEven (1 : ℚ) = 1 := by
  constructor
  · have h := c8_rounding_half_to_even.2.1 22
    simpa using h
  · exact c8_rounding_half_to_even.2.2 1 1 (by norm_num)

/-- C9.  A name declared in no HOLDING list (whether it lives only in
INPUT lists or nowhere) makes `set_register` fail with the not-found
exception: not the unsupported-value one, and no write reaches the
transport.  The three failure kinds stay distinguishable: the two
exception messages differ and neither is a write. -/
theorem c9_input_only_set_register_not_found (fam : UnitFamily)
    (blocks : List Block) (name : String) (value : ℚ)
    (hb : fam.blocks = some blocks)
    (h : ∀ b ∈ blocks, findInList (b.holding.getD []) name = none) :
    set_register fam name value = .exc "Register not found or not HOLDING register!"
    ∧ ("Register not found or not HOLDING register!" : String) ≠ "Value not supported!"
    ∧ (∀ (a : ℤ) (v : ℚ),
        SetOutcome.exc "Register not found or not HOLDING register!" ≠ SetOutcome.write a v) := by
  refine ⟨?_, by decide, ?_⟩
  · have hf : find_register blocks (some .holding) name = none := by
      unfold find_register
      exact findBlocks_holding_none name blocks none h
    simp only [set_register, hb, hf]
  · intro a v
    simp

/-- Witness for C9: OUTSIDE_TEMPERATURE exists only in block 1's INPUT
list, so writing it fails with the not-found exception. -/
theorem c9_set_register_witness :
    set_register lwzFam "OUTSIDE_TEMPERATURE" 5
      = .exc "Register not found or not HOLDING register!" :=
  (c9_input_only_set_register_not_found lwzFam lwzBlocks "OUTSIDE_TEMPERATURE" 5
    rfl (by decide)).1

/-- C10.  The unit family WPM passes the construction-time check (its
name is in the catalogue even though its table is empty), yet every
`update()` on it raises an uncaught `KeyError` at the `BLOCKS` access:
the outcome is an exception, not a boolean return, and in particular not
the `ret false` the `AttributeError` handler would produce — so the
fail-fast check does not make `update()` exception-free. -/
theorem c10_wpm_update_raises_keyerror (t : Transport) (ss : List BlockState) :
    (REGISTERS.lookup "WPM").isSome = true
    ∧ update wpmFam t ss = (ss, .err "KeyError: BLOCKS")
    ∧ (∀ b, Outcome.err "KeyError: BLOCKS" ≠ Outcome.ret b) := by
  refine ⟨by decide, rfl, ?_⟩
  intro b
  simp

end Stiebel
